import Mathlib

/-!
Verification development for `scripts/validate_task_docs.py` (TaskGarage).

The script is a four-stage pipeline:
  1. `analyze_code_changes`  : regex classification of a free-text change description;
  2. `determine_required_updates` : static table mapping active categories to doc paths;
  3. `check_documentation_sync`   : filesystem existence/mtime bucketing and status derivation;
  4. `validate_task_documentation` / `main` : result assembly and process exit code.

Modelling choices (shallow embedding):
  - The filesystem is a function `String → Option Nat`: `some m` means the full path
    resolves to a regular file whose mtime is `m` (seconds), `none` means it does not
    exist as a regular file (Python `os.path.isfile` false).
  - Wall-clock time `now : Nat` is passed explicitly (seconds).  Python compares
    `(datetime.now() - last_modified).days < 1`; for a nonnegative difference this is
    `now - mtime < 86400` seconds, and for a file modified in the future the timedelta
    has negative `days`, so the test is also true — `Nat` truncated subtraction
    (`now - m = 0` when `m > now`) reproduces both cases exactly.
  - Python `re.IGNORECASE` search is modelled by lower-casing the haystack and using
    lower-cased pattern literals; the six patterns of the script are compiled into a
    small executable matcher over `List Char` (literal strings, the classes `\s` and
    `\w`, `+`, `*`, alternation, search at every position).
  - `list(set(xs))` deduplicates with unspecified order; we model it with `List.dedup`
    and treat only the set of elements as meaningful.
-/

namespace TaskGarage

/-- Python `\s` (ASCII range): space, tab, newline, carriage return,
vertical tab, form feed. -/
def wsCh (c : Char) : Bool :=
  c == ' ' || c == Char.ofNat 9 || c == Char.ofNat 10 || c == Char.ofNat 13 ||
  c == Char.ofNat 11 || c == Char.ofNat 12

/-- Python `\w` (ASCII range): alphanumeric or underscore. -/
def wordCh (c : Char) : Bool :=
  c.isAlphanum || c == Char.ofNat 95

/-- A matcher consumes a prefix of the input and returns the list of possible
remainders (empty list = no match). -/
def M : Type := List Char → List (List Char)

/-- Match one specific character. -/
def mChar (c : Char) : M := fun s =>
  match s with
  | [] => []
  | x :: xs => if x == c then [xs] else []

/-- Match a literal character sequence. -/
def mStr : List Char → M
  | [], s => [s]
  | _ :: _, [] => []
  | c :: ts, x :: xs => if x == c then mStr ts xs else []

/-- Sequencing of matchers. -/
def mSeq (a b : M) : M := fun s => (a s).flatMap b

/-- Alternation of matchers. -/
def mAlt (a b : M) : M := fun s => a s ++ b s

/-- All remainders after consuming one or more leading characters satisfying `p`. -/
def consume1 (p : Char → Bool) : List Char → List (List Char)
  | [] => []
  | c :: cs => if p c then cs :: consume1 p cs else []

/-- `p+` : one or more characters of the class. -/
def mMany1 (p : Char → Bool) : M := consume1 p

/-- `p*` : zero or more characters of the class. -/
def mMany0 (p : Char → Bool) : M := fun s => s :: consume1 p s

/-- Does the matcher match starting at some position of the input
(Python `re.search`)? -/
def mSearch (m : M) : List Char → Bool
  | [] => !(m []).isEmpty
  | c :: cs => !(m (c :: cs)).isEmpty || mSearch m cs

/-- Lower-cased character sequence of a string (models `re.IGNORECASE`). -/
def low (s : String) : List Char := s.data.map Char.toLower

/-- Literal (already lower-case) pattern fragment. -/
def strL (s : String) : M := mStr s.data

/-- The character `\x7b` (opening curly brace). -/
def braceCh : Char := Char.ofNat 123

/-- `type\s+\w+\s+struct|struct\s+\w+\s*\x7b` (line 32 of the script). -/
def reStructDecl : M :=
  mAlt
    (mSeq (strL "type") (mSeq (mMany1 wsCh) (mSeq (mMany1 wordCh)
      (mSeq (mMany1 wsCh) (strL "struct")))))
    (mSeq (strL "struct") (mSeq (mMany1 wsCh) (mSeq (mMany1 wordCh)
      (mSeq (mMany0 wsCh) (mChar braceCh)))))

/-- `json:|yaml:` (line 35). -/
def reFieldTag : M := mAlt (strL "json:") (strL "yaml:")

/-- `func\s+\w+\s*\(|function\s+\w+\s*\(` (line 39). -/
def reFuncSig : M :=
  mAlt
    (mSeq (strL "func") (mSeq (mMany1 wsCh) (mSeq (mMany1 wordCh)
      (mSeq (mMany0 wsCh) (mChar '(')))))
    (mSeq (strL "function") (mSeq (mMany1 wsCh) (mSeq (mMany1 wordCh)
      (mSeq (mMany0 wsCh) (mChar '(')))))

/-- `ErrCode|Error|error|const\s+\w+\s*=` (line 43); with IGNORECASE the second and
third alternatives coincide after case folding, both are kept to mirror the source. -/
def reErrorCodes : M :=
  mAlt (strL "errcode") (mAlt (strL "error") (mAlt (strL "error")
    (mSeq (strL "const") (mSeq (mMany1 wsCh) (mSeq (mMany1 wordCh)
      (mSeq (mMany0 wsCh) (mChar '=')))))))

/-- `config|Config|ENV|environment|loadConfig|NewConfig` (line 47), case folded. -/
def reConfigWords : M :=
  mAlt (strL "config") (mAlt (strL "config") (mAlt (strL "env")
    (mAlt (strL "environment") (mAlt (strL "loadconfig") (strL "newconfig")))))

/-- `endpoint|route|handler|API` (line 51), case folded. -/
def reApiWords : M :=
  mAlt (strL "endpoint") (mAlt (strL "route") (mAlt (strL "handler") (strL "api")))

/-- The six boolean flags of the `changes` dict built by `analyze_code_changes`. -/
structure Changes where
  struct_fields : Bool
  function_signatures : Bool
  error_codes : Bool
  config_changes : Bool
  api_endpoints : Bool
  general_changes : Bool
deriving DecidableEq

/-- `DocumentationValidator.analyze_code_changes` (lines 19-58).  Each flag is set by
independent case-insensitive regex searches; the two separate `if`s for
`struct_fields` only ever set the flag to true, hence the disjunction.
`general_changes` is `any(changes.values())` evaluated while `general_changes`
itself is still false, i.e. the disjunction of the five category flags. -/
def analyze_code_changes (task_details : String) : Changes :=
  let cs := low task_details
  let struct_fields := mSearch reStructDecl cs || mSearch reFieldTag cs
  let function_signatures := mSearch reFuncSig cs
  let error_codes := mSearch reErrorCodes cs
  let config_changes := mSearch reConfigWords cs
  let api_endpoints := mSearch reApiWords cs
  let general_changes :=
    struct_fields || function_signatures || error_codes || config_changes || api_endpoints
  { struct_fields, function_signatures, error_codes, config_changes, api_endpoints,
    general_changes }

/-- `DocumentationValidator.determine_required_updates` (lines 60-98): static table,
per-flag `extend` calls concatenated in source order, then `list(set(...))`
(duplicate removal, order unspecified — modelled by `List.dedup`). -/
def determine_required_updates (changes : Changes) : List String :=
  let required_updates :=
    (if changes.struct_fields then
      ["docs/schemas/", "README.md (설정 섹션)",
       "docs/api-documentation.md (데이터 구조 섹션)"] else [])
    ++ (if changes.function_signatures then
      ["docs/api-documentation.md (함수 섹션)", "README.md (API 섹션)"] else [])
    ++ (if changes.error_codes then
      ["docs/api-documentation.md (에러 섹션)", "docs/error-codes.md"] else [])
    ++ (if changes.config_changes then
      ["README.md (환경변수 섹션)", "docs/configuration.md",
       "deploy/helm/gpu-webhook/values.yaml"] else [])
    ++ (if changes.api_endpoints then
      ["docs/api-documentation.md (엔드포인트 섹션)", "docs/gpu-api-analysis.md"] else [])
  required_updates.dedup

/-- POSIX `os.path.join(root, p)` with two components. -/
def joinPath (root p : String) : String :=
  if p.data.head? = some '/' then p
  else if root.data = [] then p
  else if root.data.getLast? = some '/' then root ++ p
  else root ++ "/" ++ p

/-- The `sync_status` dict of `check_documentation_sync` (lines 103-109). -/
structure SyncStatus where
  status : String
  last_updated : Option Nat
  missing_files : List String
  outdated_files : List String
  valid_files : List String
deriving DecidableEq

/-- `if not sync_status['last_updated'] or last_modified > sync_status['last_updated']`
(line 122): a datetime is always truthy, so the falsy test is exactly the `None`
test; ties keep the stored value. -/
def optMax (lu : Option Nat) (m : Nat) : Option Nat :=
  match lu with
  | none => some m
  | some l => if m > l then some m else some l

/-- One iteration of the loop in `check_documentation_sync` (lines 111-127). -/
def syncStep (project_root : String) (fs : String → Option Nat) (now : Nat)
    (st : SyncStatus) (update : String) : SyncStatus :=
  let file_path := joinPath project_root update
  match fs file_path with
  | some mtime =>
    if now - mtime < 86400 then
      { st with valid_files := st.valid_files ++ [update],
                last_updated := optMax st.last_updated mtime }
    else
      { st with outdated_files := st.outdated_files ++ [update] }
  | none =>
    { st with missing_files := st.missing_files ++ [update] }

/-- Overall status derivation (lines 129-137): Python list truthiness is
non-emptiness, checked in the source's priority order. -/
def deriveStatus (r : SyncStatus) : SyncStatus :=
  { r with status :=
      if r.missing_files ≠ [] then "failed"
      else if r.outdated_files ≠ [] then "outdated"
      else if r.valid_files ≠ [] then "completed"
      else "pending" }

/-- `DocumentationValidator.check_documentation_sync` (lines 100-139). -/
def check_documentation_sync (project_root : String) (fs : String → Option Nat)
    (now : Nat) (required_updates : List String) : SyncStatus :=
  let init : SyncStatus :=
    { status := "pending", last_updated := none,
      missing_files := [], outdated_files := [], valid_files := [] }
  deriveStatus (required_updates.foldl (syncStep project_root fs now) init)

/-- The `result` dict of `validate_task_documentation` (lines 159-166); the
`timestamp` field is `datetime.now()` at assembly time. -/
structure ValidationResult where
  task_id : String
  changes_detected : Changes
  required_updates : List String
  sync_status : SyncStatus
  validation_passed : Bool
  timestamp : Nat
deriving DecidableEq

/-- `DocumentationValidator.validate_task_documentation` (lines 141-168). -/
def validate_task_documentation (project_root : String) (fs : String → Option Nat)
    (now : Nat) (task_id task_details : String) : ValidationResult :=
  let changes := analyze_code_changes task_details
  let required_updates := determine_required_updates changes
  let sync_status := check_documentation_sync project_root fs now required_updates
  { task_id, changes_detected := changes, required_updates, sync_status,
    validation_passed := sync_status.status == "completed", timestamp := now }

/-- The exit code of `main` (lines 210-241).  `argv` includes the program name, so
`len(sys.argv) < 3` means fewer than the two required user arguments; usage text is
printed and the process exits 1 before any further processing.  The `try/except`
around the pipeline never fires in this model because every stage is a total
function; exit 0 iff `validation_passed`. -/
def mainExit (argv : List String) (cwd : String) (fs : String → Option Nat)
    (now : Nat) : Nat :=
  if argv.length < 3 then 1
  else
    let task_id := (argv[1]?).getD ""
    let task_details := (argv[2]?).getD ""
    let project_root := (argv[3]?).getD cwd
    let result := validate_task_documentation project_root fs now task_id task_details
    if result.validation_passed then 0 else 1

/-! ### Characterization of the sync-checker loop -/

/-- The loop puts `p` in the missing bucket iff its resolved path is not a file. -/
def isMissing (project_root : String) (fs : String → Option Nat) (p : String) : Bool :=
  (fs (joinPath project_root p)).isNone

/-- The loop puts `p` in the valid bucket iff it is a file modified less than a day ago. -/
def isValidF (project_root : String) (fs : String → Option Nat) (now : Nat)
    (p : String) : Bool :=
  match fs (joinPath project_root p) with
  | some m => decide (now - m < 86400)
  | none => false

/-- The loop puts `p` in the outdated bucket iff it is a file at least a day old. -/
def isOutdatedF (project_root : String) (fs : String → Option Nat) (now : Nat)
    (p : String) : Bool :=
  match fs (joinPath project_root p) with
  | some m => !decide (now - m < 86400)
  | none => false

/-- The modification time `p` contributes to `last_updated` (only valid files). -/
def vmtime (project_root : String) (fs : String → Option Nat) (now : Nat)
    (p : String) : Option Nat :=
  match fs (joinPath project_root p) with
  | some m => if now - m < 86400 then some m else none
  | none => none

theorem foldl_syncStep_spec (project_root : String) (fs : String → Option Nat)
    (now : Nat) :
    ∀ (u : List String) (st : SyncStatus),
      (u.foldl (syncStep project_root fs now) st).missing_files
        = st.missing_files ++ u.filter (isMissing project_root fs) ∧
      (u.foldl (syncStep project_root fs now) st).outdated_files
        = st.outdated_files ++ u.filter (isOutdatedF project_root fs now) ∧
      (u.foldl (syncStep project_root fs now) st).valid_files
        = st.valid_files ++ u.filter (isValidF project_root fs now) ∧
      (u.foldl (syncStep project_root fs now) st).last_updated
        = (u.filterMap (vmtime project_root fs now)).foldl optMax st.last_updated ∧
      (u.foldl (syncStep project_root fs now) st).status = st.status := by
  intro u
  induction u with
  | nil => intro st; simp
  | cons x xs ih =>
    intro st
    simp only [List.foldl_cons]
    obtain ⟨ihm, iho, ihv, ihl, ihs⟩ := ih (syncStep project_root fs now st x)
    cases hfs : fs (joinPath project_root x) with
    | none =>
      have hstep : syncStep project_root fs now st x
          = { st with missing_files := st.missing_files ++ [x] } := by
        simp [syncStep, hfs]
      rw [hstep] at ihm iho ihv ihl ihs
      refine ⟨?_, ?_, ?_, ?_, ?_⟩ <;>
        simp_all [isMissing, isOutdatedF, isValidF, vmtime, hfs, List.filter_cons,
          List.filterMap_cons]
    | some m =>
      by_cases hrec : now - m < 86400
      · have hstep : syncStep project_root fs now st x
            = { st with valid_files := st.valid_files ++ [x],
                        last_updated := optMax st.last_updated m } := by
          simp [syncStep, hfs, hrec]
        rw [hstep] at ihm iho ihv ihl ihs
        refine ⟨?_, ?_, ?_, ?_, ?_⟩ <;>
          simp_all [isMissing, isOutdatedF, isValidF, vmtime, hfs, hrec,
            List.filter_cons, List.filterMap_cons]
      · have hstep : syncStep project_root fs now st x
            = { st with outdated_files := st.outdated_files ++ [x] } := by
          simp [syncStep, hfs, hrec]
        rw [hstep] at ihm iho ihv ihl ihs
        refine ⟨?_, ?_, ?_, ?_, ?_⟩ <;>
          simp_all [isMissing, isOutdatedF, isValidF, vmtime, hfs, hrec,
            List.filter_cons, List.filterMap_cons]

theorem check_missing_eq (project_root : String) (fs : String → Option Nat) (now : Nat)
    (u : List String) :
    (check_documentation_sync project_root fs now u).missing_files
      = u.filter (isMissing project_root fs) := by
  unfold check_documentation_sync
  have h := (foldl_syncStep_spec project_root fs now u
    { status := "pending", last_updated := none,
      missing_files := [], outdated_files := [], valid_files := [] }).1
  simpa [deriveStatus] using h

theorem check_outdated_eq (project_root : String) (fs : String → Option Nat) (now : Nat)
    (u : List String) :
    (check_documentation_sync project_root fs now u).outdated_files
      = u.filter (isOutdatedF project_root fs now) := by
  unfold check_documentation_sync
  have h := (foldl_syncStep_spec project_root fs now u
    { status := "pending", last_updated := none,
      missing_files := [], outdated_files := [], valid_files := [] }).2.1
  simpa [deriveStatus] using h

theorem check_valid_eq (project_root : String) (fs : String → Option Nat) (now : Nat)
    (u : List String) :
    (check_documentation_sync project_root fs now u).valid_files
      = u.filter (isValidF project_root fs now) := by
  unfold check_documentation_sync
  have h := (foldl_syncStep_spec project_root fs now u
    { status := "pending", last_updated := none,
      missing_files := [], outdated_files := [], valid_files := [] }).2.2.1
  simpa [deriveStatus] using h

theorem check_last_eq (project_root : String) (fs : String → Option Nat) (now : Nat)
    (u : List String) :
    (check_documentation_sync project_root fs now u).last_updated
      = (u.filterMap (vmtime project_root fs now)).foldl optMax none := by
  unfold check_documentation_sync
  have h := (foldl_syncStep_spec project_root fs now u
    { status := "pending", last_updated := none,
      missing_files := [], outdated_files := [], valid_files := [] }).2.2.2.1
  simpa [deriveStatus] using h

theorem foldl_optMax_some (l : List Nat) :
    ∀ k : Nat, l.foldl optMax (some k) = some (l.foldl max k) := by
  induction l with
  | nil => intro k; rfl
  | cons a as ih =>
    intro k
    have hstep : optMax (some k) a = some (max k a) := by
      by_cases h : a > k
      · simp [optMax, h, Nat.max_eq_right (Nat.le_of_lt h)]
      · simp [optMax, h, Nat.max_eq_left (Nat.le_of_not_lt h)]
    simp [List.foldl_cons, hstep, ih]

theorem foldl_max_le (l : List Nat) :
    ∀ k : Nat, k ≤ l.foldl max k ∧ ∀ x ∈ l, x ≤ l.foldl max k := by
  induction l with
  | nil => intro k; simp
  | cons a as ih =>
    intro k
    obtain ⟨h1, h2⟩ := ih (max k a)
    refine ⟨le_trans (Nat.le_max_left k a) h1, ?_⟩
    intro x hx
    rcases List.mem_cons.mp hx with rfl | hx
    · exact le_trans (Nat.le_max_right k x) h1
    · exact h2 x hx

theorem foldl_max_mem (l : List Nat) :
    ∀ k : Nat, l.foldl max k = k ∨ l.foldl max k ∈ l := by
  induction l with
  | nil => intro k; simp
  | cons a as ih =>
    intro k
    rcases ih (max k a) with h | h
    · rcases max_choice k a with hm | hm
      · exact Or.inl (by rw [List.foldl_cons, h, hm])
      · exact Or.inr (by rw [List.foldl_cons, h, hm]; exact List.mem_cons_self a as)
    · exact Or.inr (List.mem_cons_of_mem a h)

/-- Restricting the resolved-mtime map to the valid bucket collects exactly the
contributions to `last_updated`. -/
theorem filterMap_valid_eq (project_root : String) (fs : String → Option Nat)
    (now : Nat) (u : List String) :
    (u.filter (isValidF project_root fs now)).filterMap
        (fun q => fs (joinPath project_root q))
      = u.filterMap (vmtime project_root fs now) := by
  induction u with
  | nil => rfl
  | cons x xs ih =>
    cases hfs : fs (joinPath project_root x) with
    | none =>
      simp [List.filter_cons, List.filterMap_cons, isValidF, vmtime, hfs, ih]
    | some m =>
      by_cases hrec : now - m < 86400 <;>
        simp [List.filter_cons, List.filterMap_cons, isValidF, vmtime, hfs, hrec, ih]

theorem foldl_optMax_eq_none_iff (l : List Nat) :
    l.foldl optMax none = none ↔ l = [] := by
  cases l with
  | nil => simp
  | cons a as =>
    rw [List.foldl_cons, show optMax none a = some a from rfl, foldl_optMax_some]
    simp

theorem foldl_optMax_none_spec (l : List Nat) (lu : Nat)
    (h : l.foldl optMax none = some lu) : lu ∈ l ∧ ∀ x ∈ l, x ≤ lu := by
  cases l with
  | nil => exact absurd h (by simp)
  | cons a as =>
    rw [List.foldl_cons, show optMax none a = some a from rfl, foldl_optMax_some,
      Option.some_inj] at h
    subst h
    obtain ⟨h1, h2⟩ := foldl_max_le as a
    constructor
    · rcases foldl_max_mem as a with hm | hm
      · rw [hm]; exact List.mem_cons_self a as
      · exact List.mem_cons_of_mem a hm
    · intro x hx
      rcases List.mem_cons.mp hx with rfl | hx
      · exact h1
      · exact h2 x hx

theorem three_filter_length (project_root : String) (fs : String → Option Nat)
    (now : Nat) : ∀ u : List String,
    (u.filter (isMissing project_root fs)).length
      + (u.filter (isOutdatedF project_root fs now)).length
      + (u.filter (isValidF project_root fs now)).length = u.length := by
  intro u
  induction u with
  | nil => rfl
  | cons x xs ih =>
    cases hfs : fs (joinPath project_root x) with
    | none =>
      have h1 : isMissing project_root fs x = true := by simp [isMissing, hfs]
      have h2 : isOutdatedF project_root fs now x = false := by
        simp [isOutdatedF, hfs]
      have h3 : isValidF project_root fs now x = false := by simp [isValidF, hfs]
      simp [List.filter_cons, h1, h2, h3]
      omega
    | some m =>
      have h1 : isMissing project_root fs x = false := by simp [isMissing, hfs]
      by_cases hrec : now - m < 86400
      · have h2 : isOutdatedF project_root fs now x = false := by
          simp [isOutdatedF, hfs, hrec]
        have h3 : isValidF project_root fs now x = true := by
          simp [isValidF, hfs, hrec]
        simp [List.filter_cons, h1, h2, h3]
        omega
      · have h2 : isOutdatedF project_root fs now x = true := by
          simp [isOutdatedF, hfs, hrec]
        have h3 : isValidF project_root fs now x = false := by
          simp [isValidF, hfs, hrec]
        simp [List.filter_cons, h1, h2, h3]
        omega

/-! ### Claim theorems -/

/-- C1: the overall status of `check_documentation_sync` is derived from the three
buckets in priority order — missing non-empty gives "failed", else outdated
non-empty gives "outdated", else valid non-empty gives "completed", else "pending";
in particular an empty required-updates set yields "pending". -/
theorem check_documentation_sync_status_priority (project_root : String)
    (fs : String → Option Nat) (now : Nat) (required_updates : List String) :
    ((check_documentation_sync project_root fs now required_updates).status =
      if (check_documentation_sync project_root fs now required_updates).missing_files
          ≠ [] then "failed"
      else if (check_documentation_sync project_root fs now required_updates).outdated_files
          ≠ [] then "outdated"
      else if (check_documentation_sync project_root fs now required_updates).valid_files
          ≠ [] then "completed"
      else "pending")
    ∧ (check_documentation_sync project_root fs now []).status = "pending" := by
  constructor
  · rfl
  · rfl

/-- C1 witness: concrete instance of the status-priority theorem. -/
theorem check_documentation_sync_status_priority_witness :
    (check_documentation_sync "/proj" (fun _ => (none : Option Nat)) 0 []).status
      = "pending" :=
  (check_documentation_sync_status_priority "/proj" (fun _ => none) 0 []).2

/-- C5: in every produced `ValidationResult`, `validation_passed` is true iff the
sync status is "completed". -/
theorem validation_passed_iff_completed (project_root : String)
    (fs : String → Option Nat) (now : Nat) (task_id task_details : String) :
    (validate_task_documentation project_root fs now task_id task_details).validation_passed
        = true ↔
      (validate_task_documentation project_root fs now task_id task_details).sync_status.status
        = "completed" := by
  simp [validate_task_documentation]

/-- C6: the derived `general_changes` flag of the classifier is true iff at least one
of the five category flags is true (hence all six are false on trigger-free text). -/
theorem general_changes_iff_any (task_details : String) :
    (analyze_code_changes task_details).general_changes = true ↔
      ((analyze_code_changes task_details).struct_fields = true ∨
       (analyze_code_changes task_details).function_signatures = true ∨
       (analyze_code_changes task_details).error_codes = true ∨
       (analyze_code_changes task_details).config_changes = true ∨
       (analyze_code_changes task_details).api_endpoints = true) := by
  simp [analyze_code_changes, Bool.or_eq_true]
  tauto

/-- Concrete filesystem for the spec's end-to-end scenario 2: a project root
`/proj` containing exactly the two api documentation files, both just modified
(mtime 1000, with the clock also at 1000). -/
def scenario2Fs : String → Option Nat := fun q =>
  if q = "/proj/docs/api-documentation.md" then some 1000
  else if q = "/proj/docs/gpu-api-analysis.md" then some 1000
  else none

/-- C3: each required path is resolved under the project root and bucketed: not a
regular file → missing; modified less than a day before `now` → valid (and its
mtime never exceeds the tracked `last_updated`); otherwise → outdated. -/
theorem check_documentation_sync_bucket_rule (project_root : String)
    (fs : String → Option Nat) (now : Nat) (required_updates : List String)
    (p : String) (hp : p ∈ required_updates) :
    (fs (joinPath project_root p) = none →
        p ∈ (check_documentation_sync project_root fs now required_updates).missing_files)
    ∧ (∀ m, fs (joinPath project_root p) = some m →
        (now - m < 86400 →
            p ∈ (check_documentation_sync project_root fs now required_updates).valid_files
            ∧ ∀ lu, (check_documentation_sync project_root fs now
                required_updates).last_updated = some lu → m ≤ lu)
        ∧ (¬ now - m < 86400 →
            p ∈ (check_documentation_sync project_root fs now
              required_updates).outdated_files)) := by
  refine ⟨?_, ?_⟩
  · intro h
    rw [check_missing_eq]
    exact List.mem_filter.mpr ⟨hp, by simp [isMissing, h]⟩
  · intro m hm
    constructor
    · intro hrec
      constructor
      · rw [check_valid_eq]
        exact List.mem_filter.mpr ⟨hp, by simp [isValidF, hm, hrec]⟩
      · intro lu hlu
        rw [check_last_eq] at hlu
        have hmem : m ∈ required_updates.filterMap (vmtime project_root fs now) :=
          List.mem_filterMap.mpr ⟨p, hp, by simp [vmtime, hm, hrec]⟩
        exact (foldl_optMax_none_spec _ lu hlu).2 m hmem
    · intro hrec
      rw [check_outdated_eq]
      exact List.mem_filter.mpr ⟨hp, by simp [isOutdatedF, hm, hrec]⟩

/-- C3 witness: a just-modified file is bucketed valid. -/
theorem check_documentation_sync_bucket_rule_witness :
    "docs/gpu-api-analysis.md" ∈ (check_documentation_sync "/proj" scenario2Fs 1000
      ["docs/gpu-api-analysis.md"]).valid_files :=
  (((check_documentation_sync_bucket_rule "/proj" scenario2Fs 1000
      ["docs/gpu-api-analysis.md"] "docs/gpu-api-analysis.md" (by decide)).2 1000
      (by decide)).1 (by decide)).1

/-- C7: the three buckets of `check_documentation_sync` partition the
required-updates set: sizes add up, every required path lands in some bucket,
every bucket element is a required path, and the buckets are pairwise disjoint. -/
theorem check_documentation_sync_partition (project_root : String)
    (fs : String → Option Nat) (now : Nat) (u : List String) :
    ((check_documentation_sync project_root fs now u).missing_files.length
        + (check_documentation_sync project_root fs now u).outdated_files.length
        + (check_documentation_sync project_root fs now u).valid_files.length
        = u.length)
    ∧ (∀ p, p ∈ u →
        (p ∈ (check_documentation_sync project_root fs now u).missing_files
          ∨ p ∈ (check_documentation_sync project_root fs now u).outdated_files
          ∨ p ∈ (check_documentation_sync project_root fs now u).valid_files))
    ∧ (∀ p, (p ∈ (check_documentation_sync project_root fs now u).missing_files
          ∨ p ∈ (check_documentation_sync project_root fs now u).outdated_files
          ∨ p ∈ (check_documentation_sync project_root fs now u).valid_files) → p ∈ u)
    ∧ (∀ p, ¬ (p ∈ (check_documentation_sync project_root fs now u).missing_files
            ∧ p ∈ (check_documentation_sync project_root fs now u).outdated_files)
        ∧ ¬ (p ∈ (check_documentation_sync project_root fs now u).missing_files
            ∧ p ∈ (check_documentation_sync project_root fs now u).valid_files)
        ∧ ¬ (p ∈ (check_documentation_sync project_root fs now u).outdated_files
            ∧ p ∈ (check_documentation_sync project_root fs now u).valid_files)) := by
  rw [check_missing_eq, check_outdated_eq, check_valid_eq]
  refine ⟨three_filter_length project_root fs now u, ?_, ?_, ?_⟩
  · intro p hp
    cases hfs : fs (joinPath project_root p) with
    | none => exact Or.inl (List.mem_filter.mpr ⟨hp, by simp [isMissing, hfs]⟩)
    | some m =>
      by_cases hrec : now - m < 86400
      · exact Or.inr (Or.inr (List.mem_filter.mpr ⟨hp, by simp [isValidF, hfs, hrec]⟩))
      · exact Or.inr (Or.inl (List.mem_filter.mpr ⟨hp, by simp [isOutdatedF, hfs, hrec]⟩))
  · intro p hp
    rcases hp with hp | hp | hp <;> exact (List.mem_filter.mp hp).1
  · intro p
    refine ⟨?_, ?_, ?_⟩ <;> rintro ⟨ha, hb⟩
    · have h1 := (List.mem_filter.mp ha).2
      have h2 := (List.mem_filter.mp hb).2
      cases hfs : fs (joinPath project_root p) with
      | none => simp [isOutdatedF, hfs] at h2
      | some m => simp [isMissing, hfs] at h1
    · have h1 := (List.mem_filter.mp ha).2
      have h2 := (List.mem_filter.mp hb).2
      cases hfs : fs (joinPath project_root p) with
      | none => simp [isValidF, hfs] at h2
      | some m => simp [isMissing, hfs] at h1
    · have h1 := (List.mem_filter.mp ha).2
      have h2 := (List.mem_filter.mp hb).2
      cases hfs : fs (joinPath project_root p) with
      | none => simp [isValidF, hfs] at h2
      | some m =>
        simp [isOutdatedF, hfs] at h1
        simp [isValidF, hfs] at h2
        omega

/-- C7 witness: concrete size bookkeeping for a two-element required set. -/
theorem check_documentation_sync_partition_witness :
    (check_documentation_sync "/proj" scenario2Fs 1000
        ["nonexistent.md", "docs/gpu-api-analysis.md"]).missing_files.length
      + (check_documentation_sync "/proj" scenario2Fs 1000
        ["nonexistent.md", "docs/gpu-api-analysis.md"]).outdated_files.length
      + (check_documentation_sync "/proj" scenario2Fs 1000
        ["nonexistent.md", "docs/gpu-api-analysis.md"]).valid_files.length = 2 :=
  (check_documentation_sync_partition "/proj" scenario2Fs 1000
    ["nonexistent.md", "docs/gpu-api-analysis.md"]).1

/-- C10: `last_updated` is `none` iff the valid bucket is empty, and when it is
`some m`, `m` is the most recent modification time among the valid files. -/
theorem check_documentation_sync_last_updated_spec (project_root : String)
    (fs : String → Option Nat) (now : Nat) (u : List String) :
    ((check_documentation_sync project_root fs now u).last_updated = none ↔
      (check_documentation_sync project_root fs now u).valid_files = [])
    ∧ (∀ m, (check_documentation_sync project_root fs now u).last_updated = some m →
        m ∈ (check_documentation_sync project_root fs now u).valid_files.filterMap
              (fun q => fs (joinPath project_root q))
        ∧ ∀ x ∈ (check_documentation_sync project_root fs now u).valid_files.filterMap
              (fun q => fs (joinPath project_root q)), x ≤ m) := by
  have hlast := check_last_eq project_root fs now u
  have hvalid := check_valid_eq project_root fs now u
  have hvm : (check_documentation_sync project_root fs now u).valid_files.filterMap
      (fun q => fs (joinPath project_root q))
      = u.filterMap (vmtime project_root fs now) := by
    rw [hvalid, filterMap_valid_eq]
  constructor
  · rw [hlast, foldl_optMax_eq_none_iff, hvalid]
    constructor
    · intro h
      cases hv : u.filter (isValidF project_root fs now) with
      | nil => rfl
      | cons q qs =>
        exfalso
        have hq : q ∈ u.filter (isValidF project_root fs now) := by
          rw [hv]; exact List.mem_cons_self q qs
        obtain ⟨hqu, hqv⟩ := List.mem_filter.mp hq
        cases hfs : fs (joinPath project_root q) with
        | none => simp [isValidF, hfs] at hqv
        | some m =>
          simp [isValidF, hfs] at hqv
          have hmem : m ∈ u.filterMap (vmtime project_root fs now) :=
            List.mem_filterMap.mpr ⟨q, hqu, by simp [vmtime, hfs, hqv]⟩
          rw [h] at hmem
          exact absurd hmem (List.not_mem_nil m)
    · intro h
      rw [← filterMap_valid_eq project_root fs now u, h]
      rfl
  · intro m hm'
    rw [hlast] at hm'
    obtain ⟨hmem, hle⟩ := foldl_optMax_none_spec _ m hm'
    rw [hvm]
    exact ⟨hmem, hle⟩

/-- C10 witness: the tracked timestamp of a singleton valid bucket is its mtime. -/
theorem check_documentation_sync_last_updated_spec_witness :
    (1000 : Nat) ∈ (check_documentation_sync "/proj" scenario2Fs 1000
        ["docs/gpu-api-analysis.md"]).valid_files.filterMap
        (fun q => scenario2Fs (joinPath "/proj" q)) :=
  ((check_documentation_sync_last_updated_spec "/proj" scenario2Fs 1000
    ["docs/gpu-api-analysis.md"]).2 1000 (by decide)).1

theorem mem_ite_list (b : Bool) (L : List String) (p : String) :
    p ∈ (if b then L else []) ↔ b = true ∧ p ∈ L := by
  cases b <;> simp

/-- C8: the update mapper is monotone — if every flag true in `c1` is true in `c2`,
then every path required for `c1` is required for `c2`. -/
theorem determine_required_updates_monotone (c1 c2 : Changes)
    (h1 : c1.struct_fields = true → c2.struct_fields = true)
    (h2 : c1.function_signatures = true → c2.function_signatures = true)
    (h3 : c1.error_codes = true → c2.error_codes = true)
    (h4 : c1.config_changes = true → c2.config_changes = true)
    (h5 : c1.api_endpoints = true → c2.api_endpoints = true) :
    ∀ p, p ∈ determine_required_updates c1 → p ∈ determine_required_updates c2 := by
  intro p hp
  simp only [determine_required_updates, List.mem_dedup, List.mem_append,
    mem_ite_list] at hp ⊢
  rcases hp with ((((⟨hf, hm⟩ | ⟨hf, hm⟩) | ⟨hf, hm⟩) | ⟨hf, hm⟩) | ⟨hf, hm⟩)
  · exact Or.inl (Or.inl (Or.inl (Or.inl ⟨h1 hf, hm⟩)))
  · exact Or.inl (Or.inl (Or.inl (Or.inr ⟨h2 hf, hm⟩)))
  · exact Or.inl (Or.inl (Or.inr ⟨h3 hf, hm⟩))
  · exact Or.inl (Or.inr ⟨h4 hf, hm⟩)
  · exact Or.inr ⟨h5 hf, hm⟩

/-- C8 witness: an api-only signal set is below an api-and-config signal set, and
an api path required for the smaller set is required for the larger one. -/
theorem determine_required_updates_monotone_witness :
    "docs/gpu-api-analysis.md" ∈ determine_required_updates
      ⟨false, false, false, true, true, true⟩ :=
  determine_required_updates_monotone ⟨false, false, false, false, true, true⟩
    ⟨false, false, false, true, true, true⟩ (by decide) (by decide) (by decide)
    (by decide) (by decide) "docs/gpu-api-analysis.md" (by decide)

theorem validate_passed_eq (project_root : String) (fs : String → Option Nat)
    (now : Nat) (task_id task_details : String) :
    (validate_task_documentation project_root fs now task_id
        task_details).validation_passed
      = ((validate_task_documentation project_root fs now task_id
        task_details).sync_status.status == "completed") := rfl

/-- C4: the exit code is always 0 or 1; fewer than the two required arguments give
exit 1 (usage error, nothing else runs); and the exit code is 0 exactly when the
arguments suffice and the derived status is "completed".  The top-level
`try/except` (exit 1 on an unhandled error) never fires in this model because
every pipeline stage is a total function. -/
theorem mainExit_spec (argv : List String) (cwd : String) (fs : String → Option Nat)
    (now : Nat) :
    (mainExit argv cwd fs now = 0 ∨ mainExit argv cwd fs now = 1)
    ∧ (argv.length < 3 → mainExit argv cwd fs now = 1)
    ∧ (mainExit argv cwd fs now = 0 ↔ 3 ≤ argv.length ∧
        (validate_task_documentation ((argv[3]?).getD cwd) fs now ((argv[1]?).getD "")
          ((argv[2]?).getD "")).sync_status.status = "completed") := by
  by_cases h : argv.length < 3
  · have he : mainExit argv cwd fs now = 1 := by simp [mainExit, h]
    refine ⟨Or.inr he, fun _ => he, ?_⟩
    rw [he]
    constructor
    · intro h01; exact absurd h01 (by decide)
    · rintro ⟨h3, -⟩; exact absurd h3 (Nat.not_le.mpr h)
  · by_cases hs : (validate_task_documentation ((argv[3]?).getD cwd) fs now
        ((argv[1]?).getD "") ((argv[2]?).getD "")).sync_status.status = "completed"
    · have hp : (validate_task_documentation ((argv[3]?).getD cwd) fs now
          ((argv[1]?).getD "") ((argv[2]?).getD "")).validation_passed = true := by
        rw [validate_passed_eq]
        exact beq_iff_eq.mpr hs
      have he : mainExit argv cwd fs now = 0 := by simp [mainExit, h, hp]
      exact ⟨Or.inl he, fun hlt => absurd hlt h, by
        rw [he]; simp [hs, Nat.le_of_not_lt h]⟩
    · have hp : (validate_task_documentation ((argv[3]?).getD cwd) fs now
          ((argv[1]?).getD "") ((argv[2]?).getD "")).validation_passed = false := by
        rw [validate_passed_eq]
        exact beq_eq_false_iff_ne.mpr hs
      have he : mainExit argv cwd fs now = 1 := by simp [mainExit, h, hp]
      refine ⟨Or.inr he, fun hlt => absurd hlt h, ?_⟩
      rw [he]
      constructor
      · intro h01; exact absurd h01 (by decide)
      · rintro ⟨-, hc⟩; exact absurd hc hs

/-- C4 witness: a single-argument invocation (usage error) exits 1. -/
theorem mainExit_spec_witness :
    mainExit ["validate_task_docs.py"] "/" (fun _ => (none : Option Nat)) 0 = 1 :=
  (mainExit_spec ["validate_task_docs.py"] "/" (fun _ => none) 0).2.1 (by decide)

/-- C2: evaluation of the pipeline on the spec's end-to-end scenario 2.  The
api_endpoints flag does fire, but the first required path carries the literal
section suffix " (엔드포인트 섹션)", so it is resolved as a file name that does not
exist in the described project root: it lands in the missing bucket, the status is
"failed", and the exit code is 1 — not valid/"completed"/0 as the claim states. -/
theorem scenario2_actual_behavior :
    (analyze_code_changes "added handler for new API endpoint").api_endpoints = true
    ∧ determine_required_updates
        (analyze_code_changes "added handler for new API endpoint")
      = ["docs/api-documentation.md (엔드포인트 섹션)", "docs/gpu-api-analysis.md"]
    ∧ (check_documentation_sync "/proj" scenario2Fs 1000 (determine_required_updates
        (analyze_code_changes "added handler for new API endpoint"))).missing_files
      = ["docs/api-documentation.md (엔드포인트 섹션)"]
    ∧ (check_documentation_sync "/proj" scenario2Fs 1000 (determine_required_updates
        (analyze_code_changes "added handler for new API endpoint"))).valid_files
      = ["docs/gpu-api-analysis.md"]
    ∧ (check_documentation_sync "/proj" scenario2Fs 1000 (determine_required_updates
        (analyze_code_changes "added handler for new API endpoint"))).status
      = "failed"
    ∧ mainExit ["validate_task_docs.py", "task-1",
        "added handler for new API endpoint", "/proj"] "/" scenario2Fs 1000 = 1 :=
  ⟨by decide, by decide, by decide, by decide, by decide, by decide⟩

/-- C9 counterexample: with identical task id, details, project root and an
unchanged filesystem, two invocations at different wall-clock instants produce
different outputs — the `timestamp` field records the invocation time. -/
theorem validate_not_invocation_independent :
    validate_task_documentation "." (fun _ => (none : Option Nat)) 0 "t" "x"
      ≠ validate_task_documentation "." (fun _ => (none : Option Nat)) 1 "t" "x" := by
  intro hcontra
  exact absurd (congrArg ValidationResult.timestamp hcontra) (by decide)

/-- C9 amended: the output is a deterministic pure function of the inputs, the
filesystem snapshot and the clock reading; two invocations whose clock readings
classify every mtime identically agree on every output field except `timestamp`. -/
theorem validate_deterministic_up_to_timestamp (project_root : String)
    (fs : String → Option Nat) (now₁ now₂ : Nat) (task_id task_details : String)
    (h : ∀ m : Nat, now₁ - m < 86400 ↔ now₂ - m < 86400) :
    (validate_task_documentation project_root fs now₁ task_id task_details).task_id
      = (validate_task_documentation project_root fs now₂ task_id task_details).task_id
    ∧ (validate_task_documentation project_root fs now₁ task_id
        task_details).changes_detected
      = (validate_task_documentation project_root fs now₂ task_id
        task_details).changes_detected
    ∧ (validate_task_documentation project_root fs now₁ task_id
        task_details).required_updates
      = (validate_task_documentation project_root fs now₂ task_id
        task_details).required_updates
    ∧ (validate_task_documentation project_root fs now₁ task_id
        task_details).sync_status
      = (validate_task_documentation project_root fs now₂ task_id
        task_details).sync_status
    ∧ (validate_task_documentation project_root fs now₁ task_id
        task_details).validation_passed
      = (validate_task_documentation project_root fs now₂ task_id
        task_details).validation_passed := by
  have hstep : syncStep project_root fs now₁ = syncStep project_root fs now₂ := by
    funext st p
    simp only [syncStep]
    cases hfs : fs (joinPath project_root p) with
    | none => simp [hfs]
    | some m =>
      simp only [hfs]
      exact if_congr (h m) rfl rfl
  unfold validate_task_documentation check_documentation_sync
  rw [hstep]
  exact ⟨rfl, rfl, rfl, rfl, rfl⟩

/-- C9 witness: two invocations at clock readings 3 and 7 (both within a day of
every representable mtime) produce the same sync status. -/
theorem validate_deterministic_up_to_timestamp_witness :
    (validate_task_documentation "." (fun _ => (none : Option Nat)) 3 "t" "x").sync_status
      = (validate_task_documentation "." (fun _ => (none : Option Nat)) 7 "t"
        "x").sync_status :=
  (validate_deterministic_up_to_timestamp "." (fun _ => none) 3 7 "t" "x"
    (fun m => iff_of_true (Nat.lt_of_le_of_lt (Nat.sub_le 3 m) (by decide))
      (Nat.lt_of_le_of_lt (Nat.sub_le 7 m) (by decide)))).2.2.2.1

end TaskGarage
